import Mathlib

/-
Verification development for the geek_history_tui timeline renderer
(timeline.js, interaction.js, main.js).

The JavaScript module state (currentZoomLevel, timelineOffsetX,
selectedNodeIndex, the loaded timelineData and the canvas width) is
embedded as an explicit state record `TL`.  JavaScript numbers are
embedded as exact rationals; the handful of places where interaction.js
can observe `undefined` or produce `NaN` are embedded with the `JSNum`
type.  Dates are embedded as civil (year, month, day) triples, with
`JSDate.time` the UTC-midnight millisecond timestamp that
`new Date("YYYY-MM-DD")` produces, computed by the standard
days-from-civil algorithm.
-/

set_option autoImplicit false

namespace Timeline

/- The Batteries library marks the arithmetic of `Rat` irreducible for
the elaborator; restore the default transparency locally so that
concrete render passes can be evaluated by `decide` (the kernel is
unaffected either way). -/
attribute [local semireducible] Rat.mul Rat.inv Rat.add Rat.sub Rat.ofScientific

/-- Number of days from 1970-01-01 to the given civil date (Gregorian
calendar, valid for years of the common era as used by this program).
This is the standard era/year-of-era day-count algorithm; we check below
that 1970-01-01 maps to 0. -/
def daysFromCivil (y m d : Nat) : Int :=
  let y' := if m ≤ 2 then y - 1 else y
  let era := y' / 400
  let yoe := y' % 400
  let mp := (m + 9) % 12
  let doy := (153 * mp + 2) / 5 + d - 1
  let doe := yoe * 365 + yoe / 4 - yoe / 100 + doy
  (era * 146097 + doe : Int) - 719468

/-- Model of a JavaScript Date holding a UTC-midnight calendar date, as
produced by `new Date("YYYY-MM-DD")` in timeline.js (months 1..12). -/
structure JSDate where
  year : Nat
  month : Nat
  day : Nat
  deriving DecidableEq, Repr

/-- Model of `Date.prototype.getTime`: milliseconds since the epoch.
Every date this program constructs is a UTC midnight, so the time is a
whole-day multiple of 86400000. -/
def JSDate.time (d : JSDate) : Int :=
  daysFromCivil d.year d.month d.day * 86400000

/-- Model of `Date.prototype.getFullYear`. -/
def JSDate.getFullYear (d : JSDate) : Nat := d.year

/-- Model of `Date.prototype.getMonth` (0-based month index). -/
def JSDate.getMonth (d : JSDate) : Nat := d.month - 1

/-- One event record of timelineData: `{id, title, date}`. -/
structure Event where
  id : String
  title : String
  date : JSDate
  deriving DecidableEq, Repr

/-- The module state of timeline.js: `currentZoomLevel` (1 = Month,
2 = Year, 3 = Decade), the canvas width, the loaded `timelineData`,
`timelineOffsetX` and `selectedNodeIndex`. -/
structure TL where
  currentZoomLevel : Int
  canvasWidth : ℚ
  timelineData : List Event
  timelineOffsetX : ℚ
  selectedNodeIndex : Int
  deriving DecidableEq, Repr

/-- Constant `TILE_SIZE = 10` of timeline.js. -/
def TILE_SIZE : ℚ := 10

/-- Constant `NODE_HEIGHT = TILE_SIZE * 5` of timeline.js. -/
def NODE_HEIGHT : ℚ := TILE_SIZE * 5

/-- Constant `TIMELINE_Y = 200` of timeline.js. -/
def TIMELINE_Y : ℚ := 200

/-- Function `getFontSize` of timeline.js: font size per zoom level. -/
def getFontSize (zoom : Int) : Nat :=
  if zoom = 1 then 12
  else if zoom = 2 then 10
  else if zoom = 3 then 8
  else 12

/-- Function `getNodeCharLimit` of timeline.js: title character budget
per zoom level (15 / 10 / 3, default 15). -/
def getNodeCharLimit (zoom : Int) : Nat :=
  if zoom = 1 then 15
  else if zoom = 2 then 10
  else if zoom = 3 then 3
  else 15

/-- Function `truncateText` of timeline.js: if the text is longer than
the limit, keep the first `limit` characters and append an ellipsis. -/
def truncateText (text : String) (limit : Nat) : String :=
  if text.length > limit then text.take limit ++ "..." else text

/-- The per-tier pixels-per-day constant chosen by the `switch` inside
`getDateX`: 3 / 0.8 / 0.2, default 3. -/
def scaleFactor (zoom : Int) : ℚ :=
  if zoom = 1 then 3
  else if zoom = 2 then 0.8
  else if zoom = 3 then 0.2
  else 3

/-- Function `getDateX` of timeline.js: whole-day ceiling distance from
`timelineData[0].date`, times the per-tier scale factor.  On an empty
collection the JavaScript would throw before reaching any arithmetic
(`timelineData[0]` is undefined); no caller reaches `getDateX` with
empty data, and the model returns 0 there. -/
def getDateX (tl : TL) (date : JSDate) : ℚ :=
  match tl.timelineData with
  | [] => 0
  | e0 :: _ =>
    let minDate := e0.date
    let diffTime : Int := (date.time - minDate.time).natAbs
    let diffDays : Int := ⌈(diffTime : ℚ) / (1000 * 60 * 60 * 24 : ℚ)⌉
    (diffDays : ℚ) * scaleFactor tl.currentZoomLevel

/-- Screen X of an event date: `getDateX(node.date) + timelineOffsetX`,
as computed at the top of the forEach body of `drawTimeline`. -/
def screenX (tl : TL) (date : JSDate) : ℚ :=
  getDateX tl date + tl.timelineOffsetX

/-- Function `scrollTimeline` of timeline.js: add the delta to the
offset (no clamping) and redraw. -/
def scrollTimeline (tl : TL) (deltaX : ℚ) : TL :=
  { tl with timelineOffsetX := tl.timelineOffsetX + deltaX }

/-- Function `zoomTimeline` of timeline.js: add the direction to the
zoom level, then clamp below at 1 and above at 3, and redraw. -/
def zoomTimeline (tl : TL) (direction : Int) : TL :=
  let z0 := tl.currentZoomLevel + direction
  let z1 := if z0 < 1 then 1 else z0
  let z2 := if z1 > 3 then 3 else z1
  { tl with currentZoomLevel := z2 }

theorem scaleFactor_pos (zoom : Int) : 0 < scaleFactor zoom := by
  unfold scaleFactor
  split
  · norm_num
  · split
    · norm_num
    · split <;> norm_num

/-- Day number of a date, used through `JSDate.time`. -/
def JSDate.dayNumber (d : JSDate) : Int :=
  daysFromCivil d.year d.month d.day

theorem JSDate.time_eq (d : JSDate) : d.time = d.dayNumber * 86400000 := rfl

/-- The demo dataset of timeline.js, in the order the module-level sort
leaves it: the nine dates are strictly increasing, so sorting by
`getTime` (with the title tiebreak) returns the literal order. -/
def stTng : Event :=
  { id := "st_tng", title := "Star Trek: The Next Generation", date := ⟨1987, 9, 28⟩ }

def stDs9 : Event :=
  { id := "st_ds9", title := "Star Trek: Deep Space Nine", date := ⟨1993, 1, 3⟩ }

def stVoy : Event :=
  { id := "st_voy", title := "Star Trek: Voyager", date := ⟨1995, 1, 16⟩ }

def stEnt : Event :=
  { id := "st_ent", title := "Star Trek: Enterprise", date := ⟨2001, 9, 26⟩ }

def stDsc : Event :=
  { id := "st_dsc", title := "Star Trek: Discovery", date := ⟨2017, 9, 24⟩ }

def stPic : Event :=
  { id := "st_pic", title := "Star Trek: Picard", date := ⟨2020, 1, 23⟩ }

def stLow : Event :=
  { id := "st_low", title := "Star Trek: Lower Decks", date := ⟨2020, 8, 6⟩ }

def stPro : Event :=
  { id := "st_pro", title := "Star Trek: Prodigy", date := ⟨2021, 10, 28⟩ }

def stSnw : Event :=
  { id := "st_snw", title := "Star Trek: Strange New Worlds", date := ⟨2022, 5, 5⟩ }

def timelineDataJS : List Event :=
  [stTng, stDs9, stVoy, stEnt, stDsc, stPic, stLow, stPro, stSnw]

/-- Initial module state on an 800 pixel wide canvas: tier Month,
offset 0, nothing selected, demo data loaded. -/
def tlMonth : TL :=
  { currentZoomLevel := 1, canvasWidth := 800,
    timelineData := timelineDataJS, timelineOffsetX := 0,
    selectedNodeIndex := -1 }

/-- Same state at the Year tier. -/
def tlYear : TL :=
  { currentZoomLevel := 2, canvasWidth := 800,
    timelineData := timelineDataJS, timelineOffsetX := 0,
    selectedNodeIndex := -1 }

/-- Same state at the Decade tier. -/
def tlDecade : TL :=
  { currentZoomLevel := 3, canvasWidth := 800,
    timelineData := timelineDataJS, timelineOffsetX := 0,
    selectedNodeIndex := -1 }

/-- C5: changing the scroll offset by a delta (via `scrollTimeline`)
shifts every screen X by exactly that delta, leaves every virtual X
(the `getDateX` output) unchanged, and applies no clamping to the
offset: the new offset is exactly the old offset plus the delta. -/
theorem scrollTimeline_pure_translation (tl : TL) (dx : ℚ) (d : JSDate) :
    (scrollTimeline tl dx).timelineOffsetX = tl.timelineOffsetX + dx ∧
    getDateX (scrollTimeline tl dx) d = getDateX tl d ∧
    screenX (scrollTimeline tl dx) d = screenX tl d + dx := by
  refine ⟨rfl, rfl, ?_⟩
  show getDateX tl d + (tl.timelineOffsetX + dx)
      = getDateX tl d + tl.timelineOffsetX + dx
  ring

/-- C7: `zoomTimeline` adds the direction to the tier index and clamps
the result to the range 1..3 (Month..Decade) with no wraparound; in
particular it is idempotent at the boundaries: stepping below Month at
tier 1, or above Decade at tier 3, leaves the tier unchanged. -/
theorem zoomTimeline_clamped (tl : TL) (direction : Int) :
    (zoomTimeline tl direction).currentZoomLevel
      = max 1 (min 3 (tl.currentZoomLevel + direction)) ∧
    (tl.currentZoomLevel = 1 → (zoomTimeline tl (-1)).currentZoomLevel = 1) ∧
    (tl.currentZoomLevel = 3 → (zoomTimeline tl 1).currentZoomLevel = 3) := by
  refine ⟨?_, ?_, ?_⟩
  · simp only [zoomTimeline]
    split_ifs <;> omega
  · intro h
    simp only [zoomTimeline]
    split_ifs <;> omega
  · intro h
    simp only [zoomTimeline]
    split_ifs <;> omega

theorem zoomTimeline_clamped_witness :
    (zoomTimeline tlMonth (-1)).currentZoomLevel = 1 ∧
    (zoomTimeline tlDecade 1).currentZoomLevel = 3 :=
  ⟨(zoomTimeline_clamped tlMonth (-1)).2.1 rfl,
   (zoomTimeline_clamped tlDecade 1).2.2 rfl⟩

/-- C8: for every title and every zoom tier, the displayed node text
equals the original title exactly when the title fits the active tier
character budget, and equals the first budget-many characters followed
by an ellipsis otherwise; the budgets are Month = 15, Year = 10,
Decade = 3. -/
theorem truncateText_budget (title : String) (zoom : Int) :
    truncateText title (getNodeCharLimit zoom)
      = (if title.length ≤ getNodeCharLimit zoom then title
         else title.take (getNodeCharLimit zoom) ++ "...") ∧
    getNodeCharLimit 1 = 15 ∧ getNodeCharLimit 2 = 10 ∧ getNodeCharLimit 3 = 3 := by
  refine ⟨?_, rfl, rfl, rfl⟩
  unfold truncateText
  split_ifs with h1 h2 <;> first | rfl | omega

/-- Helper: on whole-day dates at or after the reference minimum, the
ceiling in `getDateX` is exact and the virtual X is the day distance
times the tier scale factor. -/
theorem getDateX_whole_days (tl : TL) (e0 : Event) (rest : List Event) (d : JSDate)
    (hdata : tl.timelineData = e0 :: rest)
    (hmin : e0.date.time ≤ d.time) :
    getDateX tl d
      = ((d.dayNumber - e0.date.dayNumber : Int) : ℚ)
          * scaleFactor tl.currentZoomLevel := by
  obtain ⟨z, w, data, off, sel⟩ := tl
  simp only at hdata
  subst hdata
  have hnn : (0 : Int) ≤ d.time - e0.date.time := sub_nonneg.mpr hmin
  simp only [getDateX]
  have h1 : ((d.time - e0.date.time).natAbs : ℤ)
      = (d.dayNumber - e0.date.dayNumber) * 86400000 := by
    rw [Int.natAbs_of_nonneg hnn, JSDate.time_eq, JSDate.time_eq]
    ring
  rw [h1]
  have h2 : (((d.dayNumber - e0.date.dayNumber) * 86400000 : ℤ) : ℚ)
      / (1000 * 60 * 60 * 24)
      = ((d.dayNumber - e0.date.dayNumber : ℤ) : ℚ) := by
    push_cast
    norm_num

  rw [h2, Int.ceil_intCast]

/-- C2: at a fixed zoom tier, with the reference minimum date being the
dataset minimum (the head of the sorted collection), `getDateX` is
strictly monotonic: a strictly earlier date gets a strictly smaller
virtual X. -/
theorem getDateX_strictMono (tl : TL) (e0 : Event) (rest : List Event) (d1 d2 : JSDate)
    (hdata : tl.timelineData = e0 :: rest)
    (hmin : e0.date.time ≤ d1.time)
    (hlt : d1.time < d2.time) :
    getDateX tl d1 < getDateX tl d2 := by
  have hmin2 : e0.date.time ≤ d2.time := le_trans hmin (le_of_lt hlt)
  rw [getDateX_whole_days tl e0 rest d1 hdata hmin,
      getDateX_whole_days tl e0 rest d2 hdata hmin2]
  have hs := scaleFactor_pos tl.currentZoomLevel
  have hd : d1.dayNumber < d2.dayNumber := by
    rw [JSDate.time_eq, JSDate.time_eq] at hlt
    omega
  have : ((d1.dayNumber - e0.date.dayNumber : ℤ) : ℚ)
      < ((d2.dayNumber - e0.date.dayNumber : ℤ) : ℚ) := by
    exact_mod_cast sub_lt_sub_right hd _
  exact mul_lt_mul_of_pos_right this hs

theorem getDateX_strictMono_witness :
    getDateX tlYear ⟨1993, 1, 3⟩ < getDateX tlYear ⟨1995, 1, 16⟩ :=
  getDateX_strictMono tlYear stTng [stDs9, stVoy, stEnt, stDsc, stPic, stLow, stPro, stSnw]
    ⟨1993, 1, 3⟩ ⟨1995, 1, 16⟩ rfl (by decide) (by decide)

/-- Model of `String.prototype.padStart(2, "0")` as applied to the
month number in the Month tier label. -/
def padStart2 (s : String) : String :=
  String.mk (List.replicate (2 - s.length) '0') ++ s

/-- One entry of the `processedNodePositions` array that `drawTimeline`
publishes as `window.timelineNodePositions` (the Position Table). -/
structure NodePos where
  id : String
  x : ℚ
  y : ℚ
  width : ℚ
  height : ℚ
  index : Nat
  originalTitle : String
  deriving DecidableEq, Repr

/-- One date tick label drawn by `drawTimeline`, together with the
dedup key that was added to `drawnDates` when it was drawn and the X it
is centered at. -/
structure Label where
  dateString : String
  dateKey : String
  dateX : ℚ
  deriving DecidableEq, Repr

/-- The observable output of one `drawTimeline` render pass: the node
geometry records pushed to the Position Table, and the date labels
drawn on the baseline. -/
structure Frame where
  positions : List NodePos
  labels : List Label
  deriving DecidableEq, Repr

/-- The node-drawing half of the forEach body of `drawTimeline`: if the
screen X of the indexed event is strictly inside the buffered window
(`nodeX > -200 && nodeX < canvas.width + 200`), the node is drawn and
its geometry record is produced; otherwise nothing is produced. -/
def posOf (tl : TL) (ie : Nat × Event) : Option NodePos :=
  let nodeX := getDateX tl ie.2.date + tl.timelineOffsetX
  if -200 < nodeX ∧ nodeX < tl.canvasWidth + 200 then
    let charLimit := getNodeCharLimit tl.currentZoomLevel
    let displayTitle := truncateText ie.2.title charLimit
    let nodeWidth : ℚ := (displayTitle.length : ℚ) * TILE_SIZE + TILE_SIZE * 4
    some { id := ie.2.id, x := nodeX - nodeWidth / 2, y := TIMELINE_Y - NODE_HEIGHT,
           width := nodeWidth, height := TILE_SIZE * 3, index := ie.1,
           originalTitle := ie.2.title }
  else none

/-- The label computation of the forEach body of `drawTimeline`: the
`switch (currentZoomLevel)` producing `dateString`, `dateKey` and
`dateX`.  The source switch has no default case, and `zoomTimeline`
keeps the level in 1..3, so the final `none` branch is unreachable in
program states.  Note the Decade case: `dateString` has three
characters (apostrophe plus two digits), so
`dateString.substring(0, 3) + "0"` appends a zero to the whole string
rather than rounding the year to its decade. -/
def labelOf (tl : TL) (node : Event) : Option (String × String × ℚ) :=
  let nodeX := getDateX tl node.date + tl.timelineOffsetX
  if tl.currentZoomLevel = 1 then
    let dateString := Nat.repr node.date.getFullYear ++ "-"
        ++ padStart2 (Nat.repr (node.date.getMonth + 1))
    some (dateString, dateString, nodeX)
  else if tl.currentZoomLevel = 2 then
    let dateString := Nat.repr node.date.getFullYear
    some (dateString, dateString, nodeX)
  else if tl.currentZoomLevel = 3 then
    let y := node.date.getFullYear
    let dateString := "\x27" ++ (Nat.repr y).drop 2
    let dateKey := dateString.take 3 ++ "0"
    let dateX := getDateX tl ⟨y - y % 10, 1, 1⟩ + tl.timelineOffsetX
    some (dateString, dateKey, dateX)
  else none

/-- The label-drawing half of the forEach body of `drawTimeline`: draw
the label (and record its key in `drawnDates`) only when the key has
not been drawn this frame. -/
def labelStep (tl : TL) (st : List String × List Label) (node : Event) :
    List String × List Label :=
  match labelOf tl node with
  | none => st
  | some (ds, dk, dx) =>
    if dk ∈ st.1 then st
    else (st.1 ++ [dk], st.2 ++ [⟨ds, dk, dx⟩])

/-- One full iteration of the forEach body of `drawTimeline`: the
culled node drawing followed by the deduplicated label drawing. -/
def drawStep (tl : TL) (st : List String × Frame) (ie : Nat × Event) :
    List String × Frame :=
  let fr1 :=
    match posOf tl ie with
    | some p => { st.2 with positions := st.2.positions ++ [p] }
    | none => st.2
  let ls := labelStep tl (st.1, fr1.labels) ie.2
  (ls.1, { fr1 with labels := ls.2 })

/-- Function `drawTimeline` of timeline.js, modelled as the frame it
produces: it iterates over `timelineData` with indices, starting from
an empty `drawnDates` set and empty outputs. -/
def drawTimeline (tl : TL) : Frame :=
  ((List.enumFrom 0 tl.timelineData).foldl (drawStep tl) ([], ⟨[], []⟩)).2

/-- The date-label pass on its own, with no visibility test anywhere:
every event is offered to the dedup logic. -/
def labelsOnly (tl : TL) : List Label :=
  (tl.timelineData.foldl (labelStep tl) ([], [])).2

theorem enumFrom_cons_eq {α : Type} (n : Nat) (x : α) (xs : List α) :
    List.enumFrom n (x :: xs) = (n, x) :: List.enumFrom (n + 1) xs := rfl

theorem enumFrom_map_snd {α : Type} :
    ∀ (s : List α) (n : Nat), (List.enumFrom n s).map Prod.snd = s := by
  intro s
  induction s with
  | nil => intro n; rfl
  | cons x xs ih =>
    intro n
    rw [enumFrom_cons_eq, List.map_cons, ih]

/-- Helper: the positions component of the render fold is the filterMap
of the per-node culled geometry, independent of the label state. -/
theorem foldl_drawStep_positions (tl : TL) :
    ∀ (l : List (Nat × Event)) (st : List String × Frame),
    (l.foldl (drawStep tl) st).2.positions
      = st.2.positions ++ l.filterMap (posOf tl) := by
  intro l
  induction l with
  | nil => intro st; simp
  | cons x xs ih =>
    intro st
    rw [List.foldl_cons, ih, List.filterMap_cons]
    cases h : posOf tl x with
    | none => simp [drawStep, h]
    | some p => simp [drawStep, h]

/-- Helper: the drawnDates set and the label list of the render fold
evolve exactly as the label-only fold over the events, independent of
the culled node drawing. -/
theorem foldl_drawStep_labels (tl : TL) :
    ∀ (l : List (Nat × Event)) (st : List String × Frame),
    ((l.foldl (drawStep tl) st).1, (l.foldl (drawStep tl) st).2.labels)
      = (l.map Prod.snd).foldl (labelStep tl) (st.1, st.2.labels) := by
  intro l
  induction l with
  | nil => intro st; rfl
  | cons x xs ih =>
    intro st
    rw [List.foldl_cons, List.map_cons, List.foldl_cons, ih (drawStep tl st x)]
    have harg : ((drawStep tl st x).1, (drawStep tl st x).2.labels)
        = labelStep tl (st.1, st.2.labels) x.2 := by
      cases h : posOf tl x <;> simp [drawStep, h]
    rw [harg]

/-- Helper: the labels a render pass draws are exactly the labels of
the cull-free label pass. -/
theorem drawTimeline_labels_eq (tl : TL) :
    (drawTimeline tl).labels = labelsOnly tl := by
  have h := foldl_drawStep_labels tl (List.enumFrom 0 tl.timelineData) ([], ⟨[], []⟩)
  rw [enumFrom_map_snd] at h
  unfold drawTimeline labelsOnly
  exact congrArg Prod.snd h

/-- Helper: a produced geometry record carries the index of the event
it was produced from. -/
theorem posOf_index (tl : TL) (ie : Nat × Event) (p : NodePos)
    (h : posOf tl ie = some p) : p.index = ie.1 := by
  simp only [posOf] at h
  split at h
  · rw [← Option.some_inj.mp h]
  · exact absurd h (by simp)

/-- Helper: geometry is produced for an entry exactly when its screen X
lies strictly inside the buffered window. -/
theorem posOf_eq_some_iff (tl : TL) (ie : Nat × Event) :
    (∃ p, posOf tl ie = some p) ↔
      (-200 < screenX tl ie.2.date ∧ screenX tl ie.2.date < tl.canvasWidth + 200) := by
  simp only [posOf, screenX]
  split
  case isTrue h => exact ⟨fun _ => h, fun _ => ⟨_, rfl⟩⟩
  case isFalse h =>
    constructor
    · rintro ⟨p, hp⟩
      cases hp
    · intro hc
      exact absurd hc h

/-- Helper: every geometry record produced from entries numbered from n
has index at least n. -/
theorem mem_filterMap_posOf_ge (tl : TL) :
    ∀ (s : List Event) (n : Nat) (p : NodePos),
    p ∈ (List.enumFrom n s).filterMap (posOf tl) → n ≤ p.index := by
  intro s
  induction s with
  | nil => intro n p h; simp at h
  | cons x xs ih =>
    intro n p h
    rw [enumFrom_cons_eq, List.filterMap_cons] at h
    cases hp : posOf tl (n, x) with
    | none =>
      rw [hp] at h
      have := ih (n + 1) p h
      omega
    | some q =>
      rw [hp] at h
      rcases List.mem_cons.mp h with h1 | h2
      · have := posOf_index tl (n, x) q hp
        subst h1
        omega
      · have := ih (n + 1) p h2
        omega

/-- Helper: among entries numbered from n, a geometry record with index
n + k exists exactly when event k passes the visibility test. -/
theorem mem_filterMap_posOf_iff (tl : TL) :
    ∀ (s : List Event) (n k : Nat) (e : Event), s.get? k = some e →
    ((∃ p ∈ (List.enumFrom n s).filterMap (posOf tl), p.index = n + k) ↔
      (-200 < screenX tl e.date ∧ screenX tl e.date < tl.canvasWidth + 200)) := by
  intro s
  induction s with
  | nil => intro n k e h; simp at h
  | cons x xs ih =>
    intro n k e h
    rw [enumFrom_cons_eq, List.filterMap_cons]
    cases k with
    | zero =>
      have hx : x = e := by simpa using h
      subst hx
      cases hp : posOf tl (n, x) with
      | none =>
        constructor
        · rintro ⟨p, hpmem, hpidx⟩
          have hge := mem_filterMap_posOf_ge tl xs (n + 1) p hpmem
          omega
        · intro hc
          rcases (posOf_eq_some_iff tl (n, x)).mpr hc with ⟨p, hp2⟩
          rw [hp] at hp2
          cases hp2
      | some q =>
        have hcond := (posOf_eq_some_iff tl (n, x)).mp ⟨q, hp⟩
        constructor
        · intro _
          exact hcond
        · intro _
          refine ⟨q, List.mem_cons_self q _, ?_⟩
          have hq := posOf_index tl (n, x) q hp
          simpa using hq
    | succ k' =>
      have h' : xs.get? k' = some e := by simpa using h
      have ihres := ih (n + 1) k' e h'
      cases hp : posOf tl (n, x) with
      | none =>
        rw [← ihres]
        constructor
        · rintro ⟨p, hpmem, hpidx⟩
          exact ⟨p, hpmem, by omega⟩
        · rintro ⟨p, hpmem, hpidx⟩
          exact ⟨p, hpmem, by omega⟩
      | some q =>
        rw [← ihres]
        constructor
        · rintro ⟨p, hpmem, hpidx⟩
          rcases List.mem_cons.mp hpmem with h1 | h2
          · exfalso
            have := posOf_index tl (n, x) q hp
            subst h1
            omega
          · exact ⟨p, h2, by omega⟩
        · rintro ⟨p, hpmem, hpidx⟩
          exact ⟨p, List.mem_cons_of_mem q hpmem, by omega⟩

/-- Helper: a render pass emits a geometry record with index k exactly
when event k passes the (strict) visibility test. -/
theorem drawTimeline_mem_position_iff (tl : TL) (k : Nat) (e : Event)
    (he : tl.timelineData.get? k = some e) :
    (∃ p ∈ (drawTimeline tl).positions, p.index = k) ↔
      (-200 < screenX tl e.date ∧ screenX tl e.date < tl.canvasWidth + 200) := by
  unfold drawTimeline
  rw [foldl_drawStep_positions]
  have := mem_filterMap_posOf_iff tl tl.timelineData 0 k e he
  simpa using this

/-- C3 (amended): an event is drawn and a geometry record with its
index is emitted into the Position Table exactly when its screen X lies
in the OPEN interval (-200, canvasWidth + 200); the source test is
`nodeX > -200 && nodeX < canvas.width + 200`, which excludes both
endpoints, so the interval is open, not the inclusive one the claim
states. -/
theorem drawTimeline_culling (tl : TL) (k : Nat) (e : Event)
    (he : tl.timelineData.get? k = some e) :
    (∃ p ∈ (drawTimeline tl).positions, p.index = k) ↔
      (-200 < screenX tl e.date ∧ screenX tl e.date < tl.canvasWidth + 200) :=
  drawTimeline_mem_position_iff tl k e he

theorem drawTimeline_culling_witness :
    ∃ p ∈ (drawTimeline tlMonth).positions, p.index = 0 :=
  (drawTimeline_culling tlMonth 0 stTng rfl).mpr (by decide)

/-- Module state with a single event whose screen X is exactly -200:
the dataset minimum has virtual X 0, and the offset is -200. -/
def tlBoundary : TL :=
  { currentZoomLevel := 1, canvasWidth := 800,
    timelineData := [stTng], timelineOffsetX := -200,
    selectedNodeIndex := -1 }

/-- C3 counterexample to the claim as stated: this event has screen X
exactly -200, which lies inside the inclusive interval
[-200, canvasWidth + 200], yet the render pass emits no geometry for it
(the Position Table is empty), because the source test is strict. -/
theorem drawTimeline_culling_cex :
    screenX tlBoundary stTng.date = -200 ∧
    -200 ≤ screenX tlBoundary stTng.date ∧
    screenX tlBoundary stTng.date ≤ tlBoundary.canvasWidth + 200 ∧
    (drawTimeline tlBoundary).positions = [] := by
  decide

/-- C10: the date-label logic of `drawTimeline` runs for every event
regardless of visibility culling: an event whose screen X lies outside
the open window (-200, canvasWidth + 200) contributes no geometry
record, while the emitted label list of the render pass still equals
the cull-free label pass over all events — so the out-of-view event
still produces its date label when its bucket key is fresh, and still
consumes its bucket key in the per-frame dedup set. -/
theorem drawTimeline_labels_despite_culling (tl : TL) (k : Nat) (e : Event)
    (he : tl.timelineData.get? k = some e)
    (hout : ¬(-200 < screenX tl e.date ∧ screenX tl e.date < tl.canvasWidth + 200)) :
    (∀ p ∈ (drawTimeline tl).positions, p.index ≠ k) ∧
    (drawTimeline tl).labels = labelsOnly tl := by
  constructor
  · intro p hp hpk
    exact hout ((drawTimeline_mem_position_iff tl k e he).mp ⟨p, hp, hpk⟩)
  · exact drawTimeline_labels_eq tl

/-- Module state scrolled far to the right: the earliest event sits at
screen X 5000, outside the buffered window of an 800 pixel canvas. -/
def tlFar : TL :=
  { currentZoomLevel := 1, canvasWidth := 800,
    timelineData := timelineDataJS, timelineOffsetX := 5000,
    selectedNodeIndex := -1 }

theorem drawTimeline_labels_despite_culling_witness :
    (∀ p ∈ (drawTimeline tlFar).positions, p.index ≠ 0) ∧
    (drawTimeline tlFar).labels = labelsOnly tlFar :=
  drawTimeline_labels_despite_culling tlFar 0 stTng rfl (by decide)

/-- Module state at the Decade tier holding the two nineties events of
the demo dataset (1993-01-03 and 1995-01-16). -/
def tlNineties : TL :=
  { currentZoomLevel := 3, canvasWidth := 800,
    timelineData := [stDs9, stVoy], timelineOffsetX := 0,
    selectedNodeIndex := -1 }

/-- C1 failing evaluation: at the Decade tier the dedup key is the full
three-character label string with a zero appended
(`dateString.substring(0, 3) + "0"`), not a decade-rounded prefix, so
the 1993 and 1995 events — which share the 1990s decade — produce TWO
labels in one render pass with distinct keys, where the claim (and the
source comment saying the key groups by decade) demands exactly one. -/
theorem decade_label_dedup_failing :
    (drawTimeline tlNineties).labels.map Label.dateString = ["\x2793", "\x2795"] ∧
    (drawTimeline tlNineties).labels.map Label.dateKey = ["\x27930", "\x27950"] ∧
    stDs9.date.year / 10 = stVoy.date.year / 10 := by
  decide

/-- Minimal model of the JavaScript number-or-undefined values that the
navigation code of interaction.js manipulates: an integer index, NaN,
or undefined. -/
inductive JSNum where
  | int (i : Int)
  | nan
  | undef
  deriving DecidableEq, Repr

/-- JavaScript addition on such values: undefined coerces to NaN, and
NaN propagates through addition. -/
def JSNum.add : JSNum → JSNum → JSNum
  | JSNum.int a, JSNum.int b => JSNum.int (a + b)
  | _, _ => JSNum.nan

/-- JavaScript strict equality: two numbers compare by value, NaN is
not strictly equal to anything (itself included), undefined is strictly
equal only to undefined, and a number is never strictly equal to
undefined. -/
def JSNum.stricteq : JSNum → JSNum → Bool
  | JSNum.int a, JSNum.int b => decide (a = b)
  | JSNum.undef, JSNum.undef => true
  | _, _ => false

/-- JavaScript strictly-less-than on such values: false whenever a side
is NaN or undefined. -/
def JSNum.ltB : JSNum → JSNum → Bool
  | JSNum.int a, JSNum.int b => decide (a < b)
  | _, _ => false

/-- JavaScript at-least on such values: false whenever a side is NaN or
undefined. -/
def JSNum.geB : JSNum → JSNum → Bool
  | JSNum.int a, JSNum.int b => decide (b ≤ a)
  | _, _ => false

/-- Placeholder event for the never-taken default of a guarded
in-bounds array access. -/
def defaultEvent : Event :=
  { id := "", title := "", date := ⟨1970, 1, 1⟩ }

/-- Function `selectNode` of timeline.js.  The guard is
`index >= 0 && index < timelineData.length`; both comparisons are false
for a NaN or undefined index, so those fall to the deselecting else
branch, which is why the model matches on the index first.  An
in-bounds index is stored in `selectedNodeIndex` and the viewport is
recentered by scrolling the delta that puts the node at the horizontal
canvas midpoint. -/
def selectNode (tl : TL) (index : JSNum) : TL :=
  match index with
  | JSNum.int i =>
    if 0 ≤ i ∧ i < (tl.timelineData.length : Int) then
      let tl1 := { tl with selectedNodeIndex := i }
      let node := tl1.timelineData.getD i.toNat defaultEvent
      let nodeX := getDateX tl1 node.date + tl1.timelineOffsetX
      let screenCenterX := tl1.canvasWidth / 2
      let scrollDelta := screenCenterX - nodeX
      scrollTimeline tl1 scrollDelta
    else { tl with selectedNodeIndex := -1 }
  | _ => { tl with selectedNodeIndex := -1 }

/-- The value of the `window.selectedNodeIndex` property that
interaction.js reads.  timeline.js declares `let selectedNodeIndex`
with module lexical scope (a top-level `let` never becomes a window
property), its export block assigns only `window.initTimeline`,
`window.drawTimeline`, `window.scrollTimeline`, `window.zoomTimeline`,
`window.selectNode`, `window.findClosestNodeToCenter`,
`window.timelineData` and `window.timelineConfig`, and no code ever
assigns `window.selectedNodeIndex`, so every read of the property
yields undefined. -/
def windowSelectedNodeIndex : JSNum := JSNum.undef

/-- Function `navigateNodes` of interaction.js: pick the new index from
`window.selectedNodeIndex` and the direction, then call selectNode. -/
def navigateNodes (tl : TL) (direction : Int) : TL :=
  let newIndex : JSNum :=
    if windowSelectedNodeIndex.stricteq (JSNum.int (-1)) then
      if direction = 1 then
        if tl.timelineData.length > 0 then JSNum.int 0 else JSNum.int (-1)
      else
        if tl.timelineData.length > 0 then JSNum.int ((tl.timelineData.length : Int) - 1)
        else JSNum.int (-1)
    else
      let n0 := windowSelectedNodeIndex.add (JSNum.int direction)
      let n1 := if n0.ltB (JSNum.int 0) then JSNum.int 0 else n0
      let n2 :=
        if n1.geB (JSNum.int tl.timelineData.length) then
          JSNum.int ((tl.timelineData.length : Int) - 1)
        else n1
      n2
  selectNode tl newIndex

/-- C4: for every in-bounds index k, after `selectNode k` the selected
index is k and the recomputed screen X of event k equals exactly half
the canvas width. -/
theorem selectNode_recenters (tl : TL) (k : Nat) (e : Event)
    (he : tl.timelineData.get? k = some e) :
    (selectNode tl (JSNum.int (k : Int))).selectedNodeIndex = (k : Int) ∧
    screenX (selectNode tl (JSNum.int (k : Int))) e.date = tl.canvasWidth / 2 := by
  have hk : k < tl.timelineData.length := by
    by_contra hge
    rw [List.get?_eq_none.mpr (Nat.le_of_not_lt hge)] at he
    cases he
  have hguard : 0 ≤ (k : Int) ∧ (k : Int) < (tl.timelineData.length : Int) :=
    ⟨Int.ofNat_nonneg k, by exact_mod_cast hk⟩
  have hnode : tl.timelineData.getD ((k : Int)).toNat defaultEvent = e := by
    rw [Int.toNat_natCast, List.getD_eq_getElem?_getD, ← List.get?_eq_getElem?, he]
    rfl
  simp only [selectNode]
  rw [if_pos hguard, hnode]
  refine ⟨rfl, ?_⟩
  show getDateX tl e.date
      + (tl.timelineOffsetX
        + (tl.canvasWidth / 2 - (getDateX tl e.date + tl.timelineOffsetX)))
    = tl.canvasWidth / 2
  ring

theorem selectNode_recenters_witness :
    (selectNode tlMonth (JSNum.int (4 : Nat))).selectedNodeIndex = ((4 : Nat) : Int) ∧
    screenX (selectNode tlMonth (JSNum.int (4 : Nat))) stDsc.date = tlMonth.canvasWidth / 2 :=
  selectNode_recenters tlMonth 4 stDsc rfl

/-- C9 failing evaluation: with the demo dataset loaded and nothing
selected, pressing ArrowRight (navigateNodes with direction 1) does not
select index 0, and pressing it twice does not land on index 1: the
selection stays cleared both times.  interaction.js reads
`window.selectedNodeIndex`, which is always undefined because
timeline.js never exports its module-scoped `selectedNodeIndex`, so the
strict comparison with -1 is false, the no-selection branch is never
taken, `undefined + 1` evaluates to NaN, and `selectNode(NaN)` falls to
the deselecting branch. -/
theorem navigateNodes_never_selects :
    (navigateNodes tlMonth 1).selectedNodeIndex = -1 ∧
    (navigateNodes (navigateNodes tlMonth 1) 1).selectedNodeIndex = -1 := by
  decide

/-- Infinity-aware strictly-less test modelling
`distance < minDistance` with `minDistance` initialized to Infinity
(represented by none). -/
def ltInfB (d : ℚ) : Option ℚ → Bool
  | none => true
  | some m => decide (d < m)

/-- Propositional form of `ltInfB`. -/
def ltInf (d : ℚ) : Option ℚ → Prop
  | none => True
  | some m => d < m

theorem ltInfB_iff (d : ℚ) (m : Option ℚ) : ltInfB d m = true ↔ ltInf d m := by
  cases m with
  | none => simp [ltInfB, ltInf]
  | some m0 => simp [ltInfB, ltInf]

/-- The virtual-timeline X of the viewport center:
`-timelineOffsetX + canvas.width / 2`. -/
def viewportCenterX (tl : TL) : ℚ := -tl.timelineOffsetX + tl.canvasWidth / 2

/-- One iteration of the forEach body of `findClosestNodeToCenter`:
keep the index and distance of the strictly closest node seen so far. -/
def closestStep (tl : TL) (center : ℚ) (acc : Int × Option ℚ) (ie : Nat × Event) :
    Int × Option ℚ :=
  let nodeX := getDateX tl ie.2.date
  let distance := |nodeX - center|
  if ltInfB distance acc.2 then ((ie.1 : Int), some distance) else acc

/-- Function `findClosestNodeToCenter` of timeline.js, starting from
`closestIndex = -1` and `minDistance = Infinity`. -/
def findClosestNodeToCenter (tl : TL) : Int :=
  ((List.enumFrom 0 tl.timelineData).foldl
    (closestStep tl (viewportCenterX tl)) (-1, none)).1

/-- Distance from an event's virtual X to a given center X. -/
def distTo (tl : TL) (center : ℚ) (e : Event) : ℚ :=
  |getDateX tl e.date - center|

/-- Distance from an event's virtual X to the viewport center. -/
def distToCenter (tl : TL) (e : Event) : ℚ :=
  distTo tl (viewportCenterX tl) e

/-- Helper invariant of the closest-node fold: either no event beats
the incoming minimum and the accumulator passes through unchanged, or
the result is the first event attaining the minimum distance of the
suffix (strictly below the incoming minimum). -/
theorem closest_foldl_spec (tl : TL) (center : ℚ) :
    ∀ (s : List Event) (n : Nat) (ci : Int) (m : Option ℚ),
    ((List.enumFrom n s).foldl (closestStep tl center) (ci, m) = (ci, m) ∧
      ∀ k e, s.get? k = some e → ¬ ltInf (distTo tl center e) m) ∨
    (∃ i ei, s.get? i = some ei ∧
      ((List.enumFrom n s).foldl (closestStep tl center) (ci, m)).1
        = ((n + i : Nat) : Int) ∧
      ((List.enumFrom n s).foldl (closestStep tl center) (ci, m)).2
        = some (distTo tl center ei) ∧
      ltInf (distTo tl center ei) m ∧
      (∀ k e, s.get? k = some e → distTo tl center ei ≤ distTo tl center e) ∧
      (∀ k e, s.get? k = some e → k < i →
        distTo tl center ei < distTo tl center e)) := by
  intro s
  induction s with
  | nil =>
    intro n ci m
    left
    refine ⟨rfl, ?_⟩
    intro k e h
    simp at h
  | cons x xs ih =>
    intro n ci m
    rw [enumFrom_cons_eq, List.foldl_cons]
    have hstep : closestStep tl center (ci, m) (n, x)
        = if ltInfB (distTo tl center x) m
          then ((n : Int), some (distTo tl center x)) else (ci, m) := by
      simp [closestStep, distTo]
    by_cases hb : ltInfB (distTo tl center x) m = true
    · rw [hstep, if_pos hb]
      have hx : ltInf (distTo tl center x) m := (ltInfB_iff _ _).mp hb
      rcases ih (n + 1) ((n : Int)) (some (distTo tl center x)) with
        ⟨hr, hall⟩ | ⟨i, ei, hget, h1, h2, hv, hmin, hleast⟩
      · right
        refine ⟨0, x, rfl, ?_, ?_, hx, ?_, ?_⟩
        · rw [hr]
          simp
        · rw [hr]
        · intro k e hk
          cases k with
          | zero =>
            have hxe : x = e := by simpa using hk
            rw [hxe]
          | succ k' =>
            have hne := hall k' e (by simpa using hk)
            have : ¬ (distTo tl center e < distTo tl center x) := hne
            exact le_of_not_lt this
        · intro k e hk hk0
          omega
      · right
        refine ⟨i + 1, ei, by simpa using hget, ?_, h2, ?_, ?_, ?_⟩
        · rw [h1]
          congr 1
          omega
        · cases m with
          | none => trivial
          | some m0 =>
            have hxm : distTo tl center x < m0 := hx
            have hvx : distTo tl center ei < distTo tl center x := hv
            exact lt_trans hvx hxm
        · intro k e hk
          cases k with
          | zero =>
            have hxe : x = e := by simpa using hk
            rw [← hxe]
            exact le_of_lt hv
          | succ k' =>
            exact hmin k' e (by simpa using hk)
        · intro k e hk hki
          cases k with
          | zero =>
            have hxe : x = e := by simpa using hk
            rw [← hxe]
            exact hv
          | succ k' =>
            exact hleast k' e (by simpa using hk) (by omega)
    · rw [hstep, if_neg hb]
      have hxf : ¬ ltInf (distTo tl center x) m :=
        fun hc => hb ((ltInfB_iff _ _).mpr hc)
      rcases ih (n + 1) ci m with
        ⟨hr, hall⟩ | ⟨i, ei, hget, h1, h2, hv, hmin, hleast⟩
      · left
        refine ⟨hr, ?_⟩
        intro k e hk
        cases k with
        | zero =>
          have hxe : x = e := by simpa using hk
          rw [← hxe]
          exact hxf
        | succ k' =>
          exact hall k' e (by simpa using hk)
      · right
        have hmle : ∃ m0, m = some m0 ∧ m0 ≤ distTo tl center x := by
          cases m with
          | none => exact absurd trivial hxf
          | some m0 => exact ⟨m0, rfl, le_of_not_lt hxf⟩
        rcases hmle with ⟨m0, hm0, hm0le⟩
        subst hm0
        have hvm : distTo tl center ei < m0 := hv
        refine ⟨i + 1, ei, by simpa using hget, ?_, h2, hv, ?_, ?_⟩
        · rw [h1]
          congr 1
          omega
        · intro k e hk
          cases k with
          | zero =>
            have hxe : x = e := by simpa using hk
            rw [← hxe]
            exact le_of_lt (lt_of_lt_of_le hvm hm0le)
          | succ k' =>
            exact hmin k' e (by simpa using hk)
        · intro k e hk hki
          cases k with
          | zero =>
            have hxe : x = e := by simpa using hk
            rw [← hxe]
            exact lt_of_lt_of_le hvm hm0le
          | succ k' =>
            exact hleast k' e (by simpa using hk) (by omega)

/-- C6: `findClosestNodeToCenter` returns -1 exactly when the event
collection is empty; on a non-empty collection it returns the index of
an event whose virtual X is nearest to `-scrollOffset + canvasWidth/2`,
and every event at a strictly smaller index (earlier in the
ascending-date collection order) is strictly farther, so ties resolve
to the first encountered. -/
theorem findClosestNodeToCenter_spec (tl : TL) :
    (findClosestNodeToCenter tl = -1 ↔ tl.timelineData = []) ∧
    (tl.timelineData ≠ [] →
      ∃ i ei, tl.timelineData.get? i = some ei ∧
        findClosestNodeToCenter tl = (i : Int) ∧
        (∀ k e, tl.timelineData.get? k = some e →
          distToCenter tl ei ≤ distToCenter tl e) ∧
        (∀ k e, tl.timelineData.get? k = some e → k < i →
          distToCenter tl ei < distToCenter tl e)) := by
  have hmain := closest_foldl_spec tl (viewportCenterX tl) tl.timelineData 0 (-1) none
  constructor
  · constructor
    · intro hm1
      by_contra hne
      rcases hmain with ⟨hr, hall⟩ | ⟨i, ei, hget, h1, h2, hv, hmin, hleast⟩
      · cases hd : tl.timelineData with
        | nil => exact hne hd
        | cons y ys =>
          have : ¬ ltInf (distTo tl (viewportCenterX tl) y) none := by
            apply hall 0
            rw [hd]
            rfl
          exact this trivial
      · unfold findClosestNodeToCenter at hm1
        rw [h1] at hm1
        omega
    · intro hd
      unfold findClosestNodeToCenter
      rw [hd]
      rfl
  · intro hne
    rcases hmain with ⟨hr, hall⟩ | ⟨i, ei, hget, h1, h2, hv, hmin, hleast⟩
    · cases hd : tl.timelineData with
      | nil => exact absurd hd hne
      | cons y ys =>
        have : ¬ ltInf (distTo tl (viewportCenterX tl) y) none := by
          apply hall 0
          rw [hd]
          rfl
        exact absurd trivial this
    · refine ⟨i, ei, hget, ?_, hmin, hleast⟩
      unfold findClosestNodeToCenter
      rw [h1]
      simp

theorem findClosestNodeToCenter_spec_witness :
    ∃ i ei, tlMonth.timelineData.get? i = some ei ∧
      findClosestNodeToCenter tlMonth = (i : Int) ∧
      (∀ k e, tlMonth.timelineData.get? k = some e →
        distToCenter tlMonth ei ≤ distToCenter tlMonth e) ∧
      (∀ k e, tlMonth.timelineData.get? k = some e → k < i →
        distToCenter tlMonth ei < distToCenter tlMonth e) :=
  (findClosestNodeToCenter_spec tlMonth).2 (by decide)

end Timeline
